import Mathlib

/-!
Shallow embedding of the Analog_Buttons library
(src/Analog_Buttons.cpp, src/Analog_Buttons.h).

The C++ source computes voltages in single-precision floats.  Here the
float arithmetic is modelled exactly over the rationals: every
intermediate value that the claims evaluate concretely (samples 0 and
1023, small button counts) is exactly representable in `float`, and every
operation on them (5.0 * 1023.0 / 1023.0 = 5.0, (1 - 5)*3 + 5 = -7, ...)
is exact in IEEE arithmetic, so the rational model and the float code
agree at those points.  `roundf` rounds half away from zero, as the C
standard prescribes.

Timestamps (`millis()`, `unsigned long`) are modelled by `Nat`; the
debounce and repeat intervals (`int`, kept non-negative by the library's
documented contract) are also modelled by `Nat`, so that the C promotion
of the interval to `unsigned long` in `millis() > timestamp + interval`
is the ordinary addition and comparison on `Nat`.  Clock wraparound
(after 2^32 ms) is outside the model, matching the spec's monotone-clock
assumption.  Each call of `read_key` uses a single clock value `now` for
all the `millis()` calls it makes.
-/

/-- Supply voltage at the top of the resistor ladder
(`static const float SUPPLY_VOLTAGE = 5.0`). -/
def SUPPLY_VOLTAGE : ℚ := 5

/-- Default debounce time in milliseconds (`DEFAULT_DEBOUNCE_TIME = 50`). -/
def DEFAULT_DEBOUNCE_TIME : ℕ := 50

/-- Default repeat time in milliseconds; 0 disables repeat
(`DEFAULT_REPEAT_TIME = 0`). -/
def DEFAULT_REPEAT_TIME : ℕ := 0

/-- Rounding to the nearest integer, ties away from zero: the semantics of
C's `roundf` applied to the (exactly modelled) float value. -/
def roundHalfAwayFromZero (x : ℚ) : ℤ :=
  if 0 ≤ x then ⌊x + 1 / 2⌋ else ⌈x - 1 / 2⌉

/-- The rounded continuous button position of `Analog_Buttons::determine_button`
before the full-voltage remap: `voltage = SUPPLY_VOLTAGE * sample / 1023.0`,
`button_approx = (1.0 - voltage) * number_buttons + voltage`,
`button = (int)roundf(button_approx)`. -/
def button_position (number_buttons : ℤ) (sample : ℤ) : ℤ :=
  let voltage : ℚ := SUPPLY_VOLTAGE * (sample : ℚ) / 1023
  let button_approx : ℚ := (1 - voltage) * (number_buttons : ℚ) + voltage
  roundHalfAwayFromZero button_approx

/-- `Analog_Buttons::determine_button`: the rounded position, remapped to the
no-button sentinel `-1` when it exceeds `number_buttons`
(`if (button > number_buttons) button = -1`). -/
def determine_button (number_buttons : ℤ) (sample : ℤ) : ℤ :=
  let button := button_position number_buttons sample
  if button > number_buttons then -1 else button

/-- The two states of the keypad state machine (`enum keypad_state_t`). -/
inductive keypad_state_t where
  | KEYPAD_STATE_IDLE
  | KEYPAD_STATE_DEBOUNCING
  deriving DecidableEq, Repr

export keypad_state_t (KEYPAD_STATE_IDLE KEYPAD_STATE_DEBOUNCING)

/-- The member variables of class `Analog_Buttons` (the `pin` member only
routes the analog read and is omitted; the sample is passed explicitly). -/
structure Analog_Buttons where
  number_buttons : ℤ
  repeat_milliseconds : ℕ
  debounce_milliseconds : ℕ
  last_key : ℤ
  keypad_state : keypad_state_t
  debounce_timestamp : ℕ
  repeating_timestamp : ℕ
  deriving DecidableEq, Repr

/-- The constructor `Analog_Buttons(pin_number, number_of_buttons)`:
default repeat and debounce times, `last_key = -1`, `IDLE`, both
timestamps set to the current clock reading. -/
def Analog_Buttons.construct (number_of_buttons : ℤ) (now : ℕ) : Analog_Buttons :=
  { number_buttons := number_of_buttons
    repeat_milliseconds := DEFAULT_REPEAT_TIME
    debounce_milliseconds := DEFAULT_DEBOUNCE_TIME
    last_key := -1
    keypad_state := KEYPAD_STATE_IDLE
    debounce_timestamp := now
    repeating_timestamp := now }

/-- `Analog_Buttons::read_key`: one poll step.  Takes the raw analog sample
(read by `determine_button` via `analogRead`) and the clock value `now`
(`millis()`), returns the updated object together with the reported key
(`-1` for no event). -/
def read_key (b : Analog_Buttons) (sample : ℤ) (now : ℕ) : Analog_Buttons × ℤ :=
  let key_reported := determine_button b.number_buttons sample
  match b.keypad_state with
  | KEYPAD_STATE_DEBOUNCING =>
    if now > b.debounce_timestamp + b.debounce_milliseconds then
      ({ b with last_key := key_reported
                repeating_timestamp := now
                keypad_state := KEYPAD_STATE_IDLE }, key_reported)
    else
      (b, -1)
  | KEYPAD_STATE_IDLE =>
    if b.last_key ≠ key_reported then
      ({ b with debounce_timestamp := now
                keypad_state := KEYPAD_STATE_DEBOUNCING }, -1)
    else
      if b.repeat_milliseconds > 0 then
        if now > b.repeating_timestamp + b.repeat_milliseconds then
          ({ b with repeating_timestamp := now }, key_reported)
        else
          (b, -1)
      else
        (b, -1)

/-- Folding `read_key` over a list of polls, each a pair of a raw sample and
a clock value. -/
def pollSeq (b : Analog_Buttons) : List (ℤ × ℕ) → Analog_Buttons
  | [] => b
  | (s, t) :: rest => pollSeq (read_key b s t).1 rest

/-- Modelled from the spec: the resolver computation as section 4.1 words it,
with the position formula normalized by the supply voltage
(`n_approx = (1 - v/VCC)*N + v/VCC`).  Named separately so it can be
compared against `determine_button`, the definition taken from the source. -/
def determine_button_spec (buttonCount : ℤ) (sample : ℤ) : ℤ :=
  let v : ℚ := SUPPLY_VOLTAGE * (sample : ℚ) / 1023
  let n_approx : ℚ :=
    (1 - v / SUPPLY_VOLTAGE) * (buttonCount : ℚ) + v / SUPPLY_VOLTAGE
  let n := roundHalfAwayFromZero n_approx
  if n > buttonCount then -1 else n

/-! Basic facts about the rounding function. -/

/-- Rounding half away from zero fixes the integers. -/
theorem roundHalfAwayFromZero_intCast (n : ℤ) :
    roundHalfAwayFromZero (n : ℚ) = n := by
  unfold roundHalfAwayFromZero
  split
  · rw [Int.floor_eq_iff]
    constructor
    · linarith
    · linarith
  · rw [Int.ceil_eq_iff]
    constructor
    · linarith
    · linarith

/-- Rounding half away from zero is monotone. -/
theorem roundHalfAwayFromZero_mono {x y : ℚ} (h : x ≤ y) :
    roundHalfAwayFromZero x ≤ roundHalfAwayFromZero y := by
  unfold roundHalfAwayFromZero
  by_cases hx : 0 ≤ x
  · rw [if_pos hx, if_pos (le_trans hx h)]
    exact Int.floor_mono (by linarith)
  · rw [if_neg hx]
    by_cases hy : 0 ≤ y
    · rw [if_pos hy]
      have h1 : (⌈x - 1 / 2⌉ : ℤ) ≤ 0 := by
        apply Int.ceil_le.mpr
        push_cast
        linarith [lt_of_not_le hx]
      have h2 : (0 : ℤ) ≤ ⌊y + 1 / 2⌋ := by
        apply Int.le_floor.mpr
        push_cast
        linarith
      omega
    · rw [if_neg hy]
      exact Int.ceil_mono (by linarith)

/-- A lower integer bound below the argument survives the rounding. -/
theorem le_roundHalfAwayFromZero {n : ℤ} {x : ℚ} (h : (n : ℚ) ≤ x) :
    n ≤ roundHalfAwayFromZero x := by
  have := roundHalfAwayFromZero_mono h
  rwa [roundHalfAwayFromZero_intCast] at this

/-! Evaluation of the resolver at the sample values the claims use.
At sample 0 and at sample 1023 every intermediate float of the source is
an exactly representable value and every operation is exact, so the
rational model coincides with the compiled code there. -/

/-- At sample 0 (0 V, ladder shorted at the bottom) the rounded position
is exactly `number_buttons`. -/
theorem button_position_at_zero (N : ℤ) : button_position N 0 = N := by
  unfold button_position
  dsimp only
  have h : (1 - SUPPLY_VOLTAGE * ((0 : ℤ) : ℚ) / 1023) * (N : ℚ) +
      SUPPLY_VOLTAGE * ((0 : ℤ) : ℚ) / 1023 = ((N : ℤ) : ℚ) := by
    rw [SUPPLY_VOLTAGE]
    push_cast
    ring
  rw [h, roundHalfAwayFromZero_intCast]

/-- At the maximum sample 1023 (full supply voltage) the rounded position
is exactly `5 - 4 * number_buttons`: the code multiplies the raw voltage in
volts, not the voltage normalized by the supply voltage, into the ladder
formula. -/
theorem button_position_at_full (N : ℤ) : button_position N 1023 = 5 - 4 * N := by
  unfold button_position
  dsimp only
  have h : (1 - SUPPLY_VOLTAGE * ((1023 : ℤ) : ℚ) / 1023) * (N : ℚ) +
      SUPPLY_VOLTAGE * ((1023 : ℤ) : ℚ) / 1023 = ((5 - 4 * N : ℤ) : ℚ) := by
    rw [SUPPLY_VOLTAGE]
    push_cast
    ring
  rw [h, roundHalfAwayFromZero_intCast]

/-- `determine_button` at sample 0 returns `number_buttons` itself. -/
theorem determine_button_at_zero (N : ℤ) : determine_button N 0 = N := by
  unfold determine_button
  rw [button_position_at_zero, if_neg (lt_irrefl N)]

/-- `determine_button` at the full-voltage sample returns `5 - 4 * N`
whenever `1 ≤ N` (the remap to `-1` never fires there). -/
theorem determine_button_at_full (N : ℤ) (hN : 1 ≤ N) :
    determine_button N 1023 = 5 - 4 * N := by
  unfold determine_button
  rw [button_position_at_full, if_neg (by omega)]

/-- The spec-modelled resolver at the full-voltage sample returns 1 for
every `buttonCount ≥ 1`. -/
theorem determine_button_spec_at_full (N : ℤ) (hN : 1 ≤ N) :
    determine_button_spec N 1023 = 1 := by
  unfold determine_button_spec
  dsimp only
  have h : (1 - SUPPLY_VOLTAGE * ((1023 : ℤ) : ℚ) / 1023 / SUPPLY_VOLTAGE) * (N : ℚ) +
      SUPPLY_VOLTAGE * ((1023 : ℤ) : ℚ) / 1023 / SUPPLY_VOLTAGE = ((1 : ℤ) : ℚ) := by
    rw [SUPPLY_VOLTAGE]
    push_cast
    ring
  rw [h, roundHalfAwayFromZero_intCast, if_neg (by omega)]

/-! Order facts about the resolver. -/

/-- The rounded position is antitone in the sample: a larger sample gives a
smaller (or equal) position. -/
theorem button_position_antitone (N s1 s2 : ℤ) (hN : 1 ≤ N) (h12 : s1 ≤ s2) :
    button_position N s2 ≤ button_position N s1 := by
  unfold button_position
  dsimp only
  apply roundHalfAwayFromZero_mono
  rw [SUPPLY_VOLTAGE]
  have hNQ : (1 : ℚ) ≤ (N : ℚ) := by exact_mod_cast hN
  have h12Q : (s1 : ℚ) ≤ (s2 : ℚ) := by exact_mod_cast h12
  nlinarith [mul_nonneg (sub_nonneg.mpr h12Q) (sub_nonneg.mpr hNQ)]

/-- Over in-range samples the rounded position never drops below
`5 - 4 * number_buttons` (the value it takes at the full-voltage sample). -/
theorem button_position_lower (N s : ℤ) (hN : 1 ≤ N) (_h0 : 0 ≤ s) (hs : s ≤ 1023) :
    5 - 4 * N ≤ button_position N s := by
  have h := button_position_antitone N s 1023 hN hs
  rwa [button_position_at_full] at h

/-- Over in-range samples `determine_button` returns `-1` or an integer in
the interval from `5 - 4 * number_buttons` up to `number_buttons`. -/
theorem determine_button_range (N s : ℤ) (hN : 1 ≤ N) (h0 : 0 ≤ s) (hs : s ≤ 1023) :
    determine_button N s = -1 ∨
      (5 - 4 * N ≤ determine_button N s ∧ determine_button N s ≤ N) := by
  unfold determine_button
  dsimp only
  split
  · exact Or.inl rfl
  · exact Or.inr ⟨button_position_lower N s hN h0 hs, by omega⟩

/-! Claim theorems about the resolver. -/

/-- C2: the spec says the resolver rounds `(1 - v/VCC)*N + v/VCC`; the code
omits the normalization by the supply voltage and rounds `(1 - v)*N + v`
with `v` in volts.  At `buttonCount = 3`, `sample = 1023` (an input at which
every float operation of the source is exact) the code yields `-7` while the
spec formula yields `1`. -/
theorem resolver_formula_mismatch :
    determine_button 3 1023 = -7 ∧ determine_button_spec 3 1023 = 1 := by
  constructor
  · rw [determine_button_at_full 3 (by norm_num)]
    norm_num
  · exact determine_button_spec_at_full 3 (by norm_num)

/-- C3: the resolver does not always return a value in
`[0, buttonCount] ∪ {-1}`: at `buttonCount = 3`, `sample = 1023` it
returns `-7`. -/
theorem resolver_range_violation :
    determine_button 3 1023 = -7 ∧
      ¬(determine_button 3 1023 = -1 ∨
        (0 ≤ determine_button 3 1023 ∧ determine_button 3 1023 ≤ 3)) := by
  have h := determine_button_at_full 3 (by norm_num)
  norm_num at h
  rw [h]
  omega

/-- C5: at the full-voltage sample the resolver returns `5 - 4 * N`, never
the no-button sentinel `-1`, for any `buttonCount ≥ 1` — contradicting the
source's own comment that full voltage means no button is pressed. -/
theorem resolver_full_voltage_not_sentinel (N : ℤ) (hN : 1 ≤ N) :
    determine_button N 1023 = 5 - 4 * N ∧ determine_button N 1023 ≠ -1 := by
  refine ⟨determine_button_at_full N hN, ?_⟩
  rw [determine_button_at_full N hN]
  omega

/-- Witness for C5 at `buttonCount = 3`: the resolver returns `-7` at the
full-voltage sample. -/
theorem resolver_full_voltage_not_sentinel_witness :
    (1 : ℤ) ≤ 3 ∧
      (determine_button 3 1023 = 5 - 4 * 3 ∧ determine_button 3 1023 ≠ -1) :=
  ⟨by norm_num, resolver_full_voltage_not_sentinel 3 (by norm_num)⟩

/-- C6: for a fixed `buttonCount ≥ 1` the rounded button position (the value
before the greater-than-`buttonCount` remap) is non-increasing over samples
in `[0, 1023]`. -/
theorem resolver_position_nonincreasing (N s1 s2 : ℤ) (hN : 1 ≤ N)
    (_h0 : 0 ≤ s1) (h12 : s1 ≤ s2) (_hs : s2 ≤ 1023) :
    button_position N s2 ≤ button_position N s1 :=
  button_position_antitone N s1 s2 hN h12

/-- Witness for C6: concrete monotonicity instance at `buttonCount = 3`,
samples 0 and 1023. -/
theorem resolver_position_nonincreasing_witness :
    button_position 3 1023 ≤ button_position 3 0 :=
  resolver_position_nonincreasing 3 0 1023 (by norm_num) (by norm_num)
    (by norm_num) (by norm_num)

/-! Claim theorems about the debounce and repeat state machine. -/

/-- C1: during `DEBOUNCING`, a poll strictly past the debounce boundary
accepts the current resolver reading: `last_key` becomes the reading,
`repeating_timestamp` is reset to `now`, the machine returns to `IDLE`, and
the reading — whatever its value, the sentinel `-1` included — is this
poll's event. -/
theorem debounce_accept_reports_reading (b : Analog_Buttons) (sample : ℤ) (now : ℕ)
    (hphase : b.keypad_state = KEYPAD_STATE_DEBOUNCING)
    (htime : now > b.debounce_timestamp + b.debounce_milliseconds) :
    (read_key b sample now).1.last_key = determine_button b.number_buttons sample ∧
    (read_key b sample now).1.repeating_timestamp = now ∧
    (read_key b sample now).1.keypad_state = KEYPAD_STATE_IDLE ∧
    (read_key b sample now).2 = determine_button b.number_buttons sample := by
  simp [read_key, hphase, htime]

/-- Witness for C1: a debouncing keypad with 3 buttons and the default 50 ms
debounce accepts the reading of sample 0 at time 51. -/
theorem debounce_accept_reports_reading_witness :
    (read_key ⟨3, 0, 50, -1, KEYPAD_STATE_DEBOUNCING, 0, 0⟩ 0 51).1.last_key =
      determine_button 3 0 ∧
    (read_key ⟨3, 0, 50, -1, KEYPAD_STATE_DEBOUNCING, 0, 0⟩ 0 51).1.repeating_timestamp = 51 ∧
    (read_key ⟨3, 0, 50, -1, KEYPAD_STATE_DEBOUNCING, 0, 0⟩ 0 51).1.keypad_state =
      KEYPAD_STATE_IDLE ∧
    (read_key ⟨3, 0, 50, -1, KEYPAD_STATE_DEBOUNCING, 0, 0⟩ 0 51).2 =
      determine_button 3 0 :=
  debounce_accept_reports_reading ⟨3, 0, 50, -1, KEYPAD_STATE_DEBOUNCING, 0, 0⟩ 0 51
    rfl (by norm_num)

/-- C7: with `repeat_milliseconds = 0` a steadily held reading produces no
event on an idle poll, however large the clock value: the poll returns `-1`
and leaves the object unchanged. -/
theorem repeat_disabled_never_fires (b : Analog_Buttons) (sample : ℤ) (now : ℕ)
    (hphase : b.keypad_state = KEYPAD_STATE_IDLE)
    (hrep : b.repeat_milliseconds = 0)
    (hsteady : b.last_key = determine_button b.number_buttons sample) :
    read_key b sample now = (b, -1) := by
  simp [read_key, hphase, hrep, ← hsteady]

/-- Witness for C7: an idle keypad holding key 3 with repeat disabled
reports nothing even at clock value 1000000. -/
theorem repeat_disabled_never_fires_witness :
    read_key ⟨3, 0, 50, 3, KEYPAD_STATE_IDLE, 0, 0⟩ 0 1000000 =
      (⟨3, 0, 50, 3, KEYPAD_STATE_IDLE, 0, 0⟩, -1) :=
  repeat_disabled_never_fires ⟨3, 0, 50, 3, KEYPAD_STATE_IDLE, 0, 0⟩ 0 1000000
    rfl rfl (determine_button_at_zero 3).symm

/-- C8: both clock comparisons are strict.  A poll at exactly
`debounce_timestamp + debounce_milliseconds` does not accept the debouncing
key, and an idle steady poll at exactly
`repeating_timestamp + repeat_milliseconds` does not fire a repeat; both
return `-1` and leave the object unchanged. -/
theorem timing_comparisons_strict (b : Analog_Buttons) (sample : ℤ) :
    (b.keypad_state = KEYPAD_STATE_DEBOUNCING →
      read_key b sample (b.debounce_timestamp + b.debounce_milliseconds) = (b, -1)) ∧
    (b.keypad_state = KEYPAD_STATE_IDLE →
      b.last_key = determine_button b.number_buttons sample →
      read_key b sample (b.repeating_timestamp + b.repeat_milliseconds) = (b, -1)) := by
  constructor
  · intro hphase
    simp [read_key, hphase]
  · intro hphase hsteady
    simp [read_key, hphase, ← hsteady]

/-- Witness for C8: at the exact debounce boundary (time 10 + 50) a
debouncing keypad stays put, and at the exact repeat boundary (time 10 + 5)
an idle keypad holding key 3 fires nothing. -/
theorem timing_comparisons_strict_witness :
    read_key ⟨3, 0, 50, -1, KEYPAD_STATE_DEBOUNCING, 10, 0⟩ 0 (10 + 50) =
      (⟨3, 0, 50, -1, KEYPAD_STATE_DEBOUNCING, 10, 0⟩, -1) ∧
    read_key ⟨3, 5, 50, 3, KEYPAD_STATE_IDLE, 0, 10⟩ 0 (10 + 5) =
      (⟨3, 5, 50, 3, KEYPAD_STATE_IDLE, 0, 10⟩, -1) :=
  ⟨(timing_comparisons_strict ⟨3, 0, 50, -1, KEYPAD_STATE_DEBOUNCING, 10, 0⟩ 0).1 rfl,
   (timing_comparisons_strict ⟨3, 5, 50, 3, KEYPAD_STATE_IDLE, 0, 10⟩ 0).2 rfl
     (determine_button_at_zero 3).symm⟩

/-- C9: an idle poll that sees a reading different from `last_key` — even
with a zero debounce interval — reports nothing this poll: it returns `-1`,
moves to `DEBOUNCING` with `debounce_timestamp = now`, and leaves `last_key`
untouched, so the reading can first be reported on a later poll. -/
theorem change_never_accepted_same_poll (b : Analog_Buttons) (sample : ℤ) (now : ℕ)
    (hphase : b.keypad_state = KEYPAD_STATE_IDLE)
    (hchange : b.last_key ≠ determine_button b.number_buttons sample) :
    (read_key b sample now).2 = -1 ∧
    (read_key b sample now).1.keypad_state = KEYPAD_STATE_DEBOUNCING ∧
    (read_key b sample now).1.debounce_timestamp = now ∧
    (read_key b sample now).1.last_key = b.last_key := by
  simp [read_key, hphase, hchange]

/-- Witness for C9: an idle keypad with `last_key = -1`, zero debounce
interval, seeing sample 0 (reading 3), stages the change instead of
accepting it. -/
theorem change_never_accepted_same_poll_witness :
    (read_key ⟨3, 0, 0, -1, KEYPAD_STATE_IDLE, 0, 0⟩ 0 7).2 = -1 ∧
    (read_key ⟨3, 0, 0, -1, KEYPAD_STATE_IDLE, 0, 0⟩ 0 7).1.keypad_state =
      KEYPAD_STATE_DEBOUNCING ∧
    (read_key ⟨3, 0, 0, -1, KEYPAD_STATE_IDLE, 0, 0⟩ 0 7).1.debounce_timestamp = 7 ∧
    (read_key ⟨3, 0, 0, -1, KEYPAD_STATE_IDLE, 0, 0⟩ 0 7).1.last_key = -1 :=
  change_never_accepted_same_poll ⟨3, 0, 0, -1, KEYPAD_STATE_IDLE, 0, 0⟩ 0 7 rfl
    (by rw [determine_button_at_zero]; decide)

/-- C10: a firing repeat updates only `repeating_timestamp`: the phase stays
`IDLE`, `last_key`, `debounce_timestamp` and the configuration are
untouched, and the reading is reported. -/
theorem repeat_updates_only_anchor (b : Analog_Buttons) (sample : ℤ) (now : ℕ)
    (hphase : b.keypad_state = KEYPAD_STATE_IDLE)
    (hsteady : b.last_key = determine_button b.number_buttons sample)
    (hrep : 0 < b.repeat_milliseconds)
    (htime : now > b.repeating_timestamp + b.repeat_milliseconds) :
    (read_key b sample now).1 = { b with repeating_timestamp := now } ∧
    (read_key b sample now).1.keypad_state = KEYPAD_STATE_IDLE ∧
    (read_key b sample now).1.last_key = b.last_key ∧
    (read_key b sample now).1.debounce_timestamp = b.debounce_timestamp ∧
    (read_key b sample now).2 = determine_button b.number_buttons sample := by
  simp [read_key, hphase, ← hsteady, hrep, htime]

/-- Witness for C10: an idle keypad holding key 3 with a 5 ms repeat
interval fires at time 16 and changes nothing but the repeat anchor. -/
theorem repeat_updates_only_anchor_witness :
    (read_key ⟨3, 5, 50, 3, KEYPAD_STATE_IDLE, 2, 10⟩ 0 16).1 =
      { number_buttons := 3, repeat_milliseconds := 5, debounce_milliseconds := 50,
        last_key := 3, keypad_state := KEYPAD_STATE_IDLE, debounce_timestamp := 2,
        repeating_timestamp := 16 } ∧
    (read_key ⟨3, 5, 50, 3, KEYPAD_STATE_IDLE, 2, 10⟩ 0 16).1.keypad_state =
      KEYPAD_STATE_IDLE ∧
    (read_key ⟨3, 5, 50, 3, KEYPAD_STATE_IDLE, 2, 10⟩ 0 16).1.last_key = 3 ∧
    (read_key ⟨3, 5, 50, 3, KEYPAD_STATE_IDLE, 2, 10⟩ 0 16).1.debounce_timestamp = 2 ∧
    (read_key ⟨3, 5, 50, 3, KEYPAD_STATE_IDLE, 2, 10⟩ 0 16).2 = determine_button 3 0 :=
  repeat_updates_only_anchor ⟨3, 5, 50, 3, KEYPAD_STATE_IDLE, 2, 10⟩ 0 16 rfl
    (determine_button_at_zero 3).symm (by norm_num) (by norm_num)

/-! Poll sequences and the `last_key` invariant. -/

/-- A poll never changes the button count. -/
theorem read_key_number_buttons (b : Analog_Buttons) (s : ℤ) (t : ℕ) :
    (read_key b s t).1.number_buttons = b.number_buttons := by
  rcases b with ⟨nb, rm, dm, lk, ks, dt, rt⟩
  cases ks <;> simp only [read_key] <;> split_ifs <;> rfl

/-- After a poll, `last_key` is either unchanged or the resolver reading of
this poll's sample. -/
theorem read_key_last_key_cases (b : Analog_Buttons) (s : ℤ) (t : ℕ) :
    (read_key b s t).1.last_key = b.last_key ∨
    (read_key b s t).1.last_key = determine_button b.number_buttons s := by
  rcases b with ⟨nb, rm, dm, lk, ks, dt, rt⟩
  cases ks <;> simp only [read_key] <;> split_ifs <;> simp

/-- A sequence of polls never changes the button count. -/
theorem pollSeq_number_buttons (polls : List (ℤ × ℕ)) (b : Analog_Buttons) :
    (pollSeq b polls).number_buttons = b.number_buttons := by
  induction polls generalizing b with
  | nil => rfl
  | cons p rest ih =>
    obtain ⟨s, t⟩ := p
    show (pollSeq (read_key b s t).1 rest).number_buttons = b.number_buttons
    rw [ih, read_key_number_buttons]

/-- The range invariant that the polling loop actually maintains: `last_key`
is the initial sentinel `-1` or lies between `5 - 4 * number_buttons`
(the resolver value at full voltage) and `number_buttons` (its value at
sample 0). -/
theorem pollSeq_last_key_range (polls : List (ℤ × ℕ)) (b : Analog_Buttons)
    (hN : 1 ≤ b.number_buttons)
    (hI : b.last_key = -1 ∨
      (5 - 4 * b.number_buttons ≤ b.last_key ∧ b.last_key ≤ b.number_buttons))
    (hs : ∀ p ∈ polls, 0 ≤ p.1 ∧ p.1 ≤ 1023) :
    (pollSeq b polls).last_key = -1 ∨
      (5 - 4 * b.number_buttons ≤ (pollSeq b polls).last_key ∧
       (pollSeq b polls).last_key ≤ b.number_buttons) := by
  induction polls generalizing b with
  | nil => exact hI
  | cons p rest ih =>
    obtain ⟨s, t⟩ := p
    have hp := hs (s, t) (List.mem_cons_self _ _)
    have hstep : (read_key b s t).1.last_key = -1 ∨
        (5 - 4 * b.number_buttons ≤ (read_key b s t).1.last_key ∧
         (read_key b s t).1.last_key ≤ b.number_buttons) := by
      rcases read_key_last_key_cases b s t with h | h
      · rw [h]
        exact hI
      · rw [h]
        exact determine_button_range b.number_buttons s hN hp.1 hp.2
    have hrest := ih (read_key b s t).1
      (by rw [read_key_number_buttons]; exact hN)
      (by rw [read_key_number_buttons]; exact hstep)
      (fun q hq => hs q (List.mem_cons_of_mem _ hq))
    rw [read_key_number_buttons] at hrest
    exact hrest

/-- C4 counterexample: starting from a freshly constructed keypad with 3
buttons, two in-range polls of sample 0 (clock values 10 then 61, past the
50 ms default debounce) leave `lastAcceptedKey = 3`, which is outside the
claimed set `{-1, 0, ..., buttonCount - 1} = {-1, 0, 1, 2}`. -/
theorem startup_key_range_counterexample :
    (∀ p ∈ [((0 : ℤ), (10 : ℕ)), ((0 : ℤ), (61 : ℕ))], 0 ≤ p.1 ∧ p.1 ≤ 1023) ∧
    List.Chain' (fun p q : ℤ × ℕ => p.2 ≤ q.2)
      [((0 : ℤ), (10 : ℕ)), ((0 : ℤ), (61 : ℕ))] ∧
    (pollSeq (Analog_Buttons.construct 3 0)
      [((0 : ℤ), (10 : ℕ)), ((0 : ℤ), (61 : ℕ))]).last_key = 3 ∧
    ¬((pollSeq (Analog_Buttons.construct 3 0)
        [((0 : ℤ), (10 : ℕ)), ((0 : ℤ), (61 : ℕ))]).last_key = -1 ∨
      (0 ≤ (pollSeq (Analog_Buttons.construct 3 0)
            [((0 : ℤ), (10 : ℕ)), ((0 : ℤ), (61 : ℕ))]).last_key ∧
       (pollSeq (Analog_Buttons.construct 3 0)
            [((0 : ℤ), (10 : ℕ)), ((0 : ℤ), (61 : ℕ))]).last_key ≤ 3 - 1)) := by
  have e1 : read_key (Analog_Buttons.construct 3 0) 0 10 =
      (⟨3, 0, 50, -1, KEYPAD_STATE_DEBOUNCING, 10, 0⟩, -1) := by
    simp [read_key, Analog_Buttons.construct, DEFAULT_REPEAT_TIME,
      DEFAULT_DEBOUNCE_TIME, determine_button_at_zero]
  have e2 : read_key ⟨3, 0, 50, -1, KEYPAD_STATE_DEBOUNCING, 10, 0⟩ 0 61 =
      (⟨3, 0, 50, 3, KEYPAD_STATE_IDLE, 10, 61⟩, 3) := by
    simp [read_key, determine_button_at_zero]
  have e : pollSeq (Analog_Buttons.construct 3 0)
      [((0 : ℤ), (10 : ℕ)), ((0 : ℤ), (61 : ℕ))] =
      ⟨3, 0, 50, 3, KEYPAD_STATE_IDLE, 10, 61⟩ := by
    show (read_key (read_key (Analog_Buttons.construct 3 0) 0 10).1 0 61).1 =
      ⟨3, 0, 50, 3, KEYPAD_STATE_IDLE, 10, 61⟩
    rw [e1]
    rw [show ((⟨3, 0, 50, -1, KEYPAD_STATE_DEBOUNCING, 10, 0⟩,
      (-1 : ℤ)) : Analog_Buttons × ℤ).1 =
      ⟨3, 0, 50, -1, KEYPAD_STATE_DEBOUNCING, 10, 0⟩ from rfl, e2]
  refine ⟨by decide, by norm_num [List.chain'_cons], ?_, ?_⟩
  · rw [e]
  · rw [e]
    decide

/-- C4 amended: with the set `{-1, 0, ..., buttonCount - 1}` replaced by
`{-1} ∪ [5 - 4 * buttonCount, buttonCount]` — the interval the resolver
actually produces over in-range samples — the invariant holds for every
poll sequence from a freshly constructed keypad. -/
theorem startup_key_range_amended (N : ℤ) (t0 : ℕ) (polls : List (ℤ × ℕ))
    (hN : 1 ≤ N)
    (_hclock : List.Chain' (fun p q : ℤ × ℕ => p.2 ≤ q.2) polls)
    (hs : ∀ p ∈ polls, 0 ≤ p.1 ∧ p.1 ≤ 1023) :
    (pollSeq (Analog_Buttons.construct N t0) polls).last_key = -1 ∨
      (5 - 4 * N ≤ (pollSeq (Analog_Buttons.construct N t0) polls).last_key ∧
       (pollSeq (Analog_Buttons.construct N t0) polls).last_key ≤ N) :=
  pollSeq_last_key_range polls (Analog_Buttons.construct N t0) hN (Or.inl rfl) hs

/-- Witness for the amended C4: the counterexample run itself satisfies the
amended invariant (its final `lastAcceptedKey` 3 lies in `[-7, 3]`). -/
theorem startup_key_range_amended_witness :
    (pollSeq (Analog_Buttons.construct 3 0)
        [((0 : ℤ), (10 : ℕ)), ((0 : ℤ), (61 : ℕ))]).last_key = -1 ∨
      (5 - 4 * 3 ≤ (pollSeq (Analog_Buttons.construct 3 0)
          [((0 : ℤ), (10 : ℕ)), ((0 : ℤ), (61 : ℕ))]).last_key ∧
       (pollSeq (Analog_Buttons.construct 3 0)
          [((0 : ℤ), (10 : ℕ)), ((0 : ℤ), (61 : ℕ))]).last_key ≤ 3) :=
  startup_key_range_amended 3 0 [((0 : ℤ), (10 : ℕ)), ((0 : ℤ), (61 : ℕ))]
    (by norm_num) (by norm_num [List.chain'_cons]) (by decide)
